import Mathlib

/-!
Formal model of `src/app/bin/mqtt2elasticsearch.py` from
cybcon/docker.mqtt2elasticsearch: a bridge that subscribes to MQTT topics
and writes each received message as a JSON document into an Elasticsearch
or OpenSearch index, provisioning indices from a topic-to-index mapping.

The model is a shallow embedding: the store is a list of index names, the
broker callbacks are pure functions on explicit state, external library
calls (JSON parse and serialize) are parameters, and every store operation
leaves an event in an explicit trace so that ordering claims can be stated.
-/

/-- One calendar date as observed through `datetime.today()` in the source:
a year, a month and a day, each a natural number. -/
structure Date where
  year : Nat
  month : Nat
  day : Nat

/-- Decimal rendering of a natural number, most significant digit first,
as `strftime` renders date components (core `Nat.toDigits` at base 10). -/
def natDecimal (n : Nat) : List Char :=
  Nat.toDigits 10 n

/-- Left zero-padding to width `w`, as `strftime`'s `%Y`/`%m`/`%d` pad. -/
def padZero (w : Nat) (ds : List Char) : List Char :=
  List.replicate (w - ds.length) '0' ++ ds

/-- The four-digit year, as `datetime.today().strftime("%Y")`. -/
def fmtY (dt : Date) : List Char := padZero 4 (natDecimal dt.year)

/-- The zero-padded month, as `datetime.today().strftime("%m")`. -/
def fmtM (dt : Date) : List Char := padZero 2 (natDecimal dt.month)

/-- The zero-padded day, as `datetime.today().strftime("%d")`. -/
def fmtD (dt : Date) : List Char := padZero 2 (natDecimal dt.day)

/-- Python `str.replace(pat, rep)` for a three-character pattern `[a, b, c]`:
one left-to-right scan replacing each non-overlapping occurrence. -/
def replTok (a b c : Char) (rep : List Char) : List Char → List Char
  | x :: y :: z :: r =>
    if x = a ∧ y = b ∧ z = c then rep ++ replTok a b c rep r
    else x :: replTok a b c rep (y :: z :: r)
  | s => s

/-- `prepareIndexName` on the character list: the source's chained
`index.replace("{Y}", …).replace("{m}", …).replace("{d}", …)`. -/
def prepareIndexNameL (dt : Date) (s : List Char) : List Char :=
  replTok '{' 'd' '}' (fmtD dt)
    (replTok '{' 'm' '}' (fmtM dt)
      (replTok '{' 'Y' '}' (fmtY dt) s))

/-- The source's `prepareIndexName`: replace the date placeholders in an
index-name template against the current date. -/
def prepareIndexName (dt : Date) (index : String) : String :=
  String.mk (prepareIndexNameL dt index.data)

/-- Modelled from the spec: index-name resolution as the spec words it,
a single left-to-right pass that replaces each recognized placeholder
token `{Y}`, `{m}`, `{d}` with the date component and passes every other
character (unrecognized `{...}` tokens included) through unchanged. -/
def resolveSpecL (dt : Date) : List Char → List Char
  | x :: y :: z :: r =>
    if x = '{' ∧ y = 'Y' ∧ z = '}' then fmtY dt ++ resolveSpecL dt r
    else if x = '{' ∧ y = 'm' ∧ z = '}' then fmtM dt ++ resolveSpecL dt r
    else if x = '{' ∧ y = 'd' ∧ z = '}' then fmtD dt ++ resolveSpecL dt r
    else x :: resolveSpecL dt (y :: z :: r)
  | s => s

/-- Modelled from the spec: string-level index-name resolution. -/
def resolveSpec (dt : Date) (index : String) : String :=
  String.mk (resolveSpecL dt index.data)

/-- A nonempty list of decimal-digit characters: what a rendered date
component always is. -/
def digitsOnly (l : List Char) : Prop :=
  l ≠ [] ∧ ∀ c ∈ l, c.isDigit = true

/-- `t` begins with the two characters `q1`, `q2`. -/
def startsWith2 (q1 q2 : Char) (t : List Char) : Prop :=
  ∃ v, t = q1 :: q2 :: v

/-- The four-digit year as a string (`strftime("%Y")`). -/
def fmtYStr (dt : Date) : String :=
  String.mk (fmtY dt)

/-- A JSON value as Python's `json` module models one: the payload
documents and the index schemas the bridge passes through. -/
inductive Json where
  | null
  | bool (b : Bool)
  | num (n : Int)
  | str (s : String)
  | arr (elems : List Json)
  | obj (fields : List (String × Json))

/-- The document store as the bridge observes it: the names of the
indices that currently exist. -/
structure Store where
  indices : List String
deriving DecidableEq

/-- One observable interaction with the store or the broker, recorded in
program order so that ordering claims can be stated. -/
inductive Ev where
  | existsCheck (index : String) (found : Bool)
  | createIdx (index : String)
  | deleteIdx (index : String)
  | writeDoc (index : String) (body : String)
  | subscribe (topic : String)
  | connectStore
  | connectBroker
deriving DecidableEq

/-- How many index-creation calls a trace contains. -/
def countCreates (evs : List Ev) : Nat :=
  evs.countP fun e =>
    match e with
    | Ev.createIdx _ => true
    | _ => false

/-- One entry of the topic mapping table: the value stored under a topic
key in the mappings file. -/
structure MapEntry where
  elasticIndex : String
  elasticBody : Json

/-- The source's `createIndex` (lines 65-90): resolve the template, check
existence, create only when absent, else skip. Returns the new store and
the store interactions in order. -/
def createIndex (dt : Date) (st : Store) (index : String) (body : Json) :
    Store × List Ev :=
  let resolved := prepareIndexName dt index
  if resolved ∈ st.indices then
    (st, [Ev.existsCheck resolved true])
  else
    (⟨st.indices ++ [resolved]⟩,
      [Ev.existsCheck resolved false, Ev.createIdx resolved])

/-- The existence-check-and-delete part of the source's `removeIndex`
(lines 102-108). -/
def removeIndexRun (dt : Date) (st : Store) (index : String) :
    Store × List Ev :=
  let resolved := prepareIndexName dt index
  if resolved ∈ st.indices then
    (⟨st.indices.erase resolved⟩,
      [Ev.existsCheck resolved true, Ev.deleteIdx resolved])
  else
    (st, [Ev.existsCheck resolved false])

/-- The source's `removeIndex` (lines 93-114): delete the resolved index
if it exists, then `sys.exit()` when `exitAfterRemoval` is set. The final
component records whether the process exited. -/
def removeIndex (dt : Date) (st : Store) (index : String)
    (exitAfterRemoval : Bool) : Store × List Ev × Bool :=
  let r := removeIndexRun dt st index
  (r.1, r.2, exitAfterRemoval)

/-- The startup provisioning loop (source lines 324-328): for each mapping
entry, when the removal flag is set call `removeIndex` with
`exitAfterRemoval=True` — whose `sys.exit()` ends the process, so the loop
never continues — and otherwise create the entry's index. The final
component records whether the process exited inside the loop. -/
def provisionLoop (dt : Date) (removeFlag : Bool) (st : Store) :
    List (String × MapEntry) → Store × List Ev × Bool
  | [] => (st, [], false)
  | (_, v) :: rest =>
    if removeFlag then
      let r := removeIndex dt st v.elasticIndex true
      (r.1, r.2.1, r.2.2)
    else
      let c := createIndex dt st v.elasticIndex v.elasticBody
      let next := provisionLoop dt removeFlag c.1 rest
      (next.1, c.2 ++ next.2.1, next.2.2)

/-- The Python exceptions the message handler can raise. -/
inductive PyErr where
  | keyError
  | parseError
deriving DecidableEq

/-- An inbound MQTT message: topic and raw payload bytes. -/
structure Msg where
  topic : String
  payload : List Nat
deriving DecidableEq

/-- Outcome of one `on_message` callback: normal return, or an uncaught
exception together with the store state and events up to the raise. -/
inductive HandlerResult where
  | ok (st : Store) (evs : List Ev)
  | err (e : PyErr) (st : Store) (evs : List Ev)
deriving DecidableEq

/-- The source's `on_message` (lines 148-176). The topic is looked up in
the mapping table by exact key (a Python dict access, `KeyError` when
absent), the index template is resolved, the index provisioned on demand
(`createIndex` re-resolves the already-resolved name), the payload decoded
and parsed (`decodeParse`, an external-library parameter; failure raises),
and the parsed value reserialized (`dumps`) and written. -/
def on_message (dt : Date) (decodeParse : List Nat → Option Json)
    (dumps : Json → String) (topic2index : List (String × MapEntry))
    (st : Store) (msg : Msg) : HandlerResult :=
  match topic2index.lookup msg.topic with
  | none => .err .keyError st []
  | some entry =>
    let index := prepareIndexName dt entry.elasticIndex
    let step :=
      if index ∈ st.indices then (st, [Ev.existsCheck index true])
      else
        let c := createIndex dt st index entry.elasticBody
        (c.1, Ev.existsCheck index false :: c.2)
    match decodeParse msg.payload with
    | none => .err .parseError step.1 step.2
    | some v => .ok step.1 (step.2 ++ [Ev.writeDoc index (dumps v)])

/-- Outcome of the blocking receive loop: it finishes when the delivered
messages are exhausted, or crashes when a handler raises (paho-mqtt
re-raises callback exceptions out of `loop_forever`). -/
inductive LoopResult where
  | finished (st : Store) (evs : List Ev)
  | crashed (e : PyErr) (st : Store) (evs : List Ev)
deriving DecidableEq

/-- The receive loop: deliver each message to `on_message` in order; an
uncaught exception ends the loop at once, leaving later messages
unprocessed. -/
def runLoop (dt : Date) (decodeParse : List Nat → Option Json)
    (dumps : Json → String) (topic2index : List (String × MapEntry)) :
    Store → List Msg → LoopResult
  | st, [] => .finished st []
  | st, m :: rest =>
    match on_message dt decodeParse dumps topic2index st m with
    | .ok st1 evs =>
      match runLoop dt decodeParse dumps topic2index st1 rest with
      | .finished st2 evs2 => .finished st2 (evs ++ evs2)
      | .crashed e st2 evs2 => .crashed e st2 (evs ++ evs2)
    | .err e st1 evs => .crashed e st1 evs

/-- The source's `on_connect` (lines 117-145): a non-zero return code is
fatal (`sys.exit(1)`, modelled as `Except.error 1`); on success the client
subscribes to every key of the mapping table, in table order. -/
def on_connect (rc : Nat) (topic2index : List (String × MapEntry)) :
    Except Nat (List Ev) :=
  if rc ≠ 0 then .error 1
  else .ok (topic2index.map fun kv => Ev.subscribe kv.1)

/-- The `mqtt` configuration block; `none` marks an absent key. -/
structure MqttCfg where
  server : String
  port : Nat
  client_id : Option String
  user : Option String
  password : Option String
  tls : Option Bool
  hostname_validation : Option Bool
  protocol_version : Option Nat

/-- The `elasticsearch` configuration block; `none` marks an absent key. -/
structure ElasticCfg where
  cluster : Option (List String)
  api_key : Option String

/-- One entry of `opensearch.hosts`; `none` marks an absent key. -/
structure OsHost where
  host : Option String
  port : Option Nat

/-- The `opensearch` configuration block; `none` marks an absent key. -/
structure OpensearchCfg where
  hosts : Option (List OsHost)
  username : Option String
  password : Option String
  tls : Option Bool
  verify_certs : Option Bool
  ca_certs_path : Option String

/-- The configuration file; `none` marks an absent key. -/
structure Config where
  debug : Option Bool
  removeIndex : Option Bool
  mqtt : Option MqttCfg
  elasticsearch : Option ElasticCfg
  opensearch : Option OpensearchCfg

/-- Source lines 246-251: when either credential key is absent from the
opensearch block, both values are reset to null. -/
def osCredentialDefaults (o : OpensearchCfg) : OpensearchCfg :=
  let o1 :=
    if o.username.isNone then { o with username := none, password := none }
    else o
  if o1.password.isNone then { o1 with username := none, password := none }
  else o1

/-- Source lines 275-277: basic-auth credentials are attached to the
OpenSearch client only when both the username and the password are truthy
(non-null and non-empty). -/
def osAuth (o : OpensearchCfg) : Option (String × String) :=
  match o.username, o.password with
  | some u, some p => if u ≠ "" ∧ p ≠ "" then some (u, p) else none
  | _, _ => none

/-- Source lines 221-230: the elasticsearch block requires a nonempty
cluster list; a violation is `sys.exit(1)`. -/
def checkElastic : Option ElasticCfg → Except Nat (Option ElasticCfg)
  | none => .ok none
  | some e =>
    match e.cluster with
    | none => .error 1
    | some cl =>
      if cl.length < 1 then .error 1 else .ok (some e)

/-- Source lines 240-245: every opensearch host needs a `host` key; an
absent `port` defaults to 9200. -/
def checkHosts : List OsHost → Except Nat (List OsHost)
  | [] => .ok []
  | h :: rest =>
    match h.host with
    | none => .error 1
    | some _ =>
      match checkHosts rest with
      | .error c => .error c
      | .ok rest1 => .ok ({ h with port := some (h.port.getD 9200) } :: rest1)

/-- Source lines 231-257: the opensearch block requires a nonempty hosts
list; then credential and TLS defaults are applied. -/
def checkOpensearch : Option OpensearchCfg → Except Nat (Option OpensearchCfg)
  | none => .ok none
  | some o =>
    match o.hosts with
    | none => .error 1
    | some hs =>
      if hs.length < 1 then .error 1
      else
        match checkHosts hs with
        | .error c => .error c
        | .ok hs1 =>
          let o1 := osCredentialDefaults { o with hosts := some hs1 }
          .ok (some { o1 with
            tls := some (o1.tls.getD false),
            verify_certs := some (o1.verify_certs.getD false),
            ca_certs_path :=
              some (o1.ca_certs_path.getD "/etc/ssl/certs/ca-certificates.crt") })

/-- What survives startup validation. -/
structure ValidCfg where
  removeIndex : Bool
  mqtt : MqttCfg
  elastic : Option ElasticCfg
  opensearch : Option OpensearchCfg

/-- The startup validation segment (source lines 204-265), in source
order: default the removal flag, require the `mqtt` block, check whichever
backend blocks are present, then reject a configuration that selects both
backends or neither. Every failure is `sys.exit(1)`. -/
def startupValidate (cfg : Config) : Except Nat ValidCfg :=
  match cfg.mqtt with
  | none => .error 1
  | some m =>
    match checkElastic cfg.elasticsearch with
    | .error c => .error c
    | .ok eOpt =>
      match checkOpensearch cfg.opensearch with
      | .error c => .error c
      | .ok oOpt =>
        if cfg.opensearch.isSome && cfg.elasticsearch.isSome then .error 1
        else if !cfg.opensearch.isSome && !cfg.elasticsearch.isSome then .error 1
        else
          .ok { removeIndex := cfg.removeIndex.getD false, mqtt := m,
                elastic := eOpt, opensearch := oOpt }

/-- How far startup got: the process exited with a code, or reached the
blocking receive loop. -/
inductive StartResult where
  | exitedWith (code : Nat) (evs : List Ev)
  | reachedLoop (st : Store) (evs : List Ev)
deriving DecidableEq

/-- The main startup sequence in source order: validation (lines 204-265),
store client construction (269-287), the initial provisioning loop
(324-328) — which may exit the process — and finally the broker
connection (336). -/
def mainStartup (dt : Date) (cfg : Config)
    (topic2index : List (String × MapEntry)) (st : Store) : StartResult :=
  match startupValidate cfg with
  | .error c => .exitedWith c []
  | .ok v =>
    let p := provisionLoop dt v.removeIndex st topic2index
    if p.2.2 then .exitedWith 0 (Ev.connectStore :: p.2.1)
    else .reachedLoop p.1 (Ev.connectStore :: p.2.1 ++ [Ev.connectBroker])

/-- A minimal well-formed `mqtt` block for concrete runs. -/
def mqttSample : MqttCfg :=
  { server := "broker", port := 1883, client_id := none, user := none,
    password := none, tls := none, hostname_validation := none,
    protocol_version := none }

/-- A well-formed `elasticsearch` block for concrete runs. -/
def elasticSample : ElasticCfg :=
  { cluster := some ["http://db:9200"], api_key := none }

/-- A well-formed `opensearch` block for concrete runs. -/
def opensearchSample : OpensearchCfg :=
  { hosts := some [{ host := some "db", port := some 9200 }],
    username := none, password := none, tls := none, verify_certs := none,
    ca_certs_path := none }

/-- A configuration selecting both backends. -/
def cfgBoth : Config :=
  { debug := none, removeIndex := none, mqtt := some mqttSample,
    elasticsearch := some elasticSample, opensearch := some opensearchSample }

/-- A configuration selecting neither backend. -/
def cfgNeither : Config :=
  { debug := none, removeIndex := none, mqtt := some mqttSample,
    elasticsearch := none, opensearch := none }

/-- A well-formed configuration with the removal flag set. -/
def cfgRemove : Config :=
  { debug := none, removeIndex := some true, mqtt := some mqttSample,
    elasticsearch := some elasticSample, opensearch := none }

/-- A mapping table with two entries, for the removal-ordering claim. -/
def mapTwo : List (String × MapEntry) :=
  [("t/a", ⟨"idx-a", Json.null⟩), ("t/b", ⟨"idx-b", Json.null⟩)]

/-- A mapping table whose single entry is keyed by a wildcard pattern. -/
def mapWildcard : List (String × MapEntry) :=
  [("sensors/+/temp", ⟨"temp-{Y}", Json.null⟩)]

/-- A mapping table with one literal topic key. -/
def mapPlain : List (String × MapEntry) :=
  [("t", ⟨"idx", Json.null⟩)]

/-- A concrete stand-in for the external JSON decode-and-parse call: the
byte 49 (the text "1") parses, everything else fails. -/
def parseDemo : List Nat → Option Json :=
  fun b => if b = [49] then some (Json.num 1) else none

/-- A concrete stand-in for the external JSON serializer. -/
def dumpsDemo : Json → String :=
  fun _ => "1"

theorem startsWith2_cons (q1 q2 x : Char) (w : List Char) :
    startsWith2 q1 q2 (x :: w) ↔ (x = q1 ∧ w.head? = some q2) := by
  constructor
  · rintro ⟨v, hv⟩
    obtain ⟨h1, h2⟩ := List.cons.inj hv
    exact ⟨h1, by rw [h2]; rfl⟩
  · rintro ⟨rfl, h2⟩
    rcases w with _ | ⟨c, w⟩
    · simp at h2
    · simp only [List.head?] at h2
      exact ⟨w, by rw [Option.some.inj h2]⟩

theorem startsWith2_cons2 (q1 q2 y z : Char) (r : List Char) :
    startsWith2 q1 q2 (y :: z :: r) ↔ (y = q1 ∧ z = q2) := by
  rw [startsWith2_cons]
  simp [List.head?]

theorem digit_ne (c q : Char) (hc : c.isDigit = true) (hq : q.isDigit = false) :
    c ≠ q := by
  intro h
  rw [h, hq] at hc
  exact Bool.false_ne_true hc

theorem digitChar_isDigit (n : Nat) (h : n < 10) :
    (Nat.digitChar n).isDigit = true := by
  interval_cases n <;> decide

theorem toDigitsCore10_digits (fuel : Nat) :
    ∀ (n : Nat) (ds : List Char), (∀ c ∈ ds, c.isDigit = true) →
      ∀ c ∈ Nat.toDigitsCore 10 fuel n ds, c.isDigit = true := by
  induction fuel with
  | zero =>
    intro n ds h c hc
    exact h c hc
  | succ fuel ih =>
    intro n ds h c hc
    rw [Nat.toDigitsCore] at hc
    have hd : ∀ e ∈ Nat.digitChar (n % 10) :: ds, e.isDigit = true := by
      intro e he
      rcases List.mem_cons.mp he with rfl | he
      · exact digitChar_isDigit _ (Nat.mod_lt _ (by omega))
      · exact h e he
    by_cases h0 : n / 10 = 0
    · rw [if_pos h0] at hc
      exact hd c hc
    · rw [if_neg h0] at hc
      exact ih (n / 10) _ hd c hc

theorem toDigitsCore10_ne_nil (fuel : Nat) :
    ∀ (n : Nat) (ds : List Char), ds ≠ [] → Nat.toDigitsCore 10 fuel n ds ≠ [] := by
  induction fuel with
  | zero =>
    intro n ds h
    exact h
  | succ fuel ih =>
    intro n ds h
    rw [Nat.toDigitsCore]
    by_cases h0 : n / 10 = 0
    · rw [if_pos h0]
      exact List.cons_ne_nil _ _
    · rw [if_neg h0]
      exact ih (n / 10) _ (List.cons_ne_nil _ _)

theorem natDecimal_digits (n : Nat) : ∀ c ∈ natDecimal n, c.isDigit = true := by
  intro c hc
  unfold natDecimal Nat.toDigits at hc
  exact toDigitsCore10_digits (n + 1) n [] (by intro c h; cases h) c hc

theorem natDecimal_ne_nil (n : Nat) : natDecimal n ≠ [] := by
  unfold natDecimal Nat.toDigits
  rw [Nat.toDigitsCore]
  by_cases h0 : n / 10 = 0
  · rw [if_pos h0]
    exact List.cons_ne_nil _ _
  · rw [if_neg h0]
    exact toDigitsCore10_ne_nil n (n / 10) _ (List.cons_ne_nil _ _)

theorem padZero_digitsOnly (w : Nat) (l : List Char) (hne : l ≠ [])
    (hd : ∀ c ∈ l, c.isDigit = true) : digitsOnly (padZero w l) := by
  refine ⟨?_, ?_⟩
  · intro h
    rcases List.append_eq_nil.mp h with ⟨_, h2⟩
    exact hne h2
  · intro c hc
    rcases List.mem_append.mp hc with hc | hc
    · rw [List.eq_of_mem_replicate hc]
      decide
    · exact hd c hc

theorem fmtY_digitsOnly (dt : Date) : digitsOnly (fmtY dt) :=
  padZero_digitsOnly _ _ (natDecimal_ne_nil _) (natDecimal_digits _)

theorem fmtM_digitsOnly (dt : Date) : digitsOnly (fmtM dt) :=
  padZero_digitsOnly _ _ (natDecimal_ne_nil _) (natDecimal_digits _)

theorem fmtD_digitsOnly (dt : Date) : digitsOnly (fmtD dt) :=
  padZero_digitsOnly _ _ (natDecimal_ne_nil _) (natDecimal_digits _)

theorem replTok_cons3 (a b c x y z : Char) (rep r : List Char) :
    replTok a b c rep (x :: y :: z :: r) =
      if x = a ∧ y = b ∧ z = c then rep ++ replTok a b c rep r
      else x :: replTok a b c rep (y :: z :: r) := rfl

theorem replTok_fire (a b c : Char) (rep r : List Char) :
    replTok a b c rep (a :: b :: c :: r) = rep ++ replTok a b c rep r := by
  rw [replTok_cons3, if_pos ⟨rfl, rfl, rfl⟩]

theorem replTok_skip_head (a b c x : Char) (rep : List Char) (hx : x ≠ a)
    (t : List Char) : replTok a b c rep (x :: t) = x :: replTok a b c rep t := by
  rcases t with _ | ⟨y, _ | ⟨z, r⟩⟩
  · rfl
  · rfl
  · rw [replTok_cons3, if_neg (fun h => hx h.1)]

theorem replTok_skip_starts (a b c x : Char) (rep w : List Char)
    (hw : ¬ startsWith2 b c w) :
    replTok a b c rep (x :: w) = x :: replTok a b c rep w := by
  rcases w with _ | ⟨u, _ | ⟨v, w⟩⟩
  · rfl
  · rfl
  · refine (replTok_cons3 a b c x u v rep w).trans (if_neg ?_)
    rintro ⟨-, rfl, rfl⟩
    exact hw ⟨w, rfl⟩

theorem replTok_append (a b c : Char) (rep : List Char) (l : List Char)
    (hl : ∀ u ∈ l, u ≠ a) (t : List Char) :
    replTok a b c rep (l ++ t) = l ++ replTok a b c rep t := by
  induction l with
  | nil => rfl
  | cons u l ih =>
    rw [List.cons_append, replTok_skip_head a b c u rep (hl u (by simp)) (l ++ t),
      ih (fun v hv => hl v (by simp [hv])), List.cons_append]

theorem replTok_head_iff (a b c q : Char) (rep : List Char)
    (hrep : digitsOnly rep) (hq : q.isDigit = false) (hqa : q ≠ a) (t : List Char) :
    (replTok a b c rep t).head? = some q ↔ t.head? = some q := by
  rcases t with _ | ⟨x, _ | ⟨y, _ | ⟨z, r⟩⟩⟩
  · rfl
  · rfl
  · rfl
  · rw [replTok_cons3]
    by_cases h : x = a ∧ y = b ∧ z = c
    · rw [if_pos h]
      obtain ⟨rfl, -, -⟩ := h
      rcases hrep with ⟨hne, hdig⟩
      rcases rep with _ | ⟨rc, rep⟩
      · exact absurd rfl hne
      · constructor
        · intro hh
          have : rc = q := Option.some.inj hh
          exact absurd this (digit_ne rc q (hdig rc (by simp)) hq)
        · intro hh
          have : x = q := Option.some.inj hh
          exact absurd this.symm hqa
    · rw [if_neg h]
      rfl

theorem replTok_startsTwo_iff (a b c q1 q2 : Char) (rep : List Char)
    (hrep : digitsOnly rep) (hq1 : q1.isDigit = false) (hq1a : q1 ≠ a)
    (hq2 : q2.isDigit = false) (hq2a : q2 ≠ a) (t : List Char) :
    startsWith2 q1 q2 (replTok a b c rep t) ↔ startsWith2 q1 q2 t := by
  rcases t with _ | ⟨x, _ | ⟨y, _ | ⟨z, r⟩⟩⟩
  · rfl
  · rfl
  · rfl
  · rw [replTok_cons3]
    by_cases h : x = a ∧ y = b ∧ z = c
    · rw [if_pos h]
      obtain ⟨rfl, -, -⟩ := h
      rcases hrep with ⟨hne, hdig⟩
      constructor
      · intro hs
        rcases rep with _ | ⟨rc, rep⟩
        · exact absurd rfl hne
        · rcases (startsWith2_cons q1 q2 rc _).mp hs with ⟨h1, -⟩
          exact absurd h1 (digit_ne rc q1 (hdig rc (by simp)) hq1)
      · intro hs
        rcases (startsWith2_cons q1 q2 x _).mp hs with ⟨h1, -⟩
        exact absurd h1 (fun h2 => hq1a (h2 ▸ rfl))
    · rw [if_neg h, startsWith2_cons, startsWith2_cons,
        replTok_head_iff a b c q2 rep hrep hq2 hq2a]

theorem digits_append_head_ne (rep X : List Char) (q : Char)
    (hrep : digitsOnly rep) (hq : q.isDigit = false) :
    (rep ++ X).head? ≠ some q := by
  rcases hrep with ⟨hne, hdig⟩
  rcases rep with _ | ⟨rc, rep⟩
  · exact absurd rfl hne
  · intro h
    exact absurd (Option.some.inj h) (digit_ne rc q (hdig rc (by simp)) hq)

theorem digits_append_not_starts (rep X : List Char) (q1 q2 : Char)
    (hrep : digitsOnly rep) (hq1 : q1.isDigit = false) :
    ¬ startsWith2 q1 q2 (rep ++ X) := by
  rcases hrep with ⟨hne, hdig⟩
  rcases rep with _ | ⟨rc, rep⟩
  · exact absurd rfl hne
  · intro hs
    rw [List.cons_append] at hs
    rcases (startsWith2_cons q1 q2 rc _).mp hs with ⟨h1, -⟩
    exact absurd h1 (digit_ne rc q1 (hdig rc (by simp)) hq1)

theorem resolveSpecL_cons3 (dt : Date) (x y z : Char) (r : List Char) :
    resolveSpecL dt (x :: y :: z :: r) =
      if x = '{' ∧ y = 'Y' ∧ z = '}' then fmtY dt ++ resolveSpecL dt r
      else if x = '{' ∧ y = 'm' ∧ z = '}' then fmtM dt ++ resolveSpecL dt r
      else if x = '{' ∧ y = 'd' ∧ z = '}' then fmtD dt ++ resolveSpecL dt r
      else x :: resolveSpecL dt (y :: z :: r) := rfl

theorem resolveSpecL_fireY (dt : Date) (r : List Char) :
    resolveSpecL dt ('{' :: 'Y' :: '}' :: r) = fmtY dt ++ resolveSpecL dt r := by
  rw [resolveSpecL_cons3,
    if_pos (show '{' = '{' ∧ 'Y' = 'Y' ∧ '}' = '}' from ⟨rfl, rfl, rfl⟩)]

theorem resolveSpecL_fireM (dt : Date) (r : List Char) :
    resolveSpecL dt ('{' :: 'm' :: '}' :: r) = fmtM dt ++ resolveSpecL dt r := by
  rw [resolveSpecL_cons3,
    if_neg (show ¬('{' = '{' ∧ 'm' = 'Y' ∧ '}' = '}') by decide),
    if_pos (show '{' = '{' ∧ 'm' = 'm' ∧ '}' = '}' from ⟨rfl, rfl, rfl⟩)]

theorem resolveSpecL_fireD (dt : Date) (r : List Char) :
    resolveSpecL dt ('{' :: 'd' :: '}' :: r) = fmtD dt ++ resolveSpecL dt r := by
  rw [resolveSpecL_cons3,
    if_neg (show ¬('{' = '{' ∧ 'd' = 'Y' ∧ '}' = '}') by decide),
    if_neg (show ¬('{' = '{' ∧ 'd' = 'm' ∧ '}' = '}') by decide),
    if_pos (show '{' = '{' ∧ 'd' = 'd' ∧ '}' = '}' from ⟨rfl, rfl, rfl⟩)]

theorem resolveSpecL_noFire (dt : Date) (x y z : Char) (r : List Char)
    (hA : ¬(x = '{' ∧ y = 'Y' ∧ z = '}')) (hB : ¬(x = '{' ∧ y = 'm' ∧ z = '}'))
    (hC : ¬(x = '{' ∧ y = 'd' ∧ z = '}')) :
    resolveSpecL dt (x :: y :: z :: r) = x :: resolveSpecL dt (y :: z :: r) := by
  rw [resolveSpecL_cons3, if_neg hA, if_neg hB, if_neg hC]

theorem resolveSpecL_skip_head (dt : Date) (x : Char) (hx : x ≠ '{')
    (t : List Char) : resolveSpecL dt (x :: t) = x :: resolveSpecL dt t := by
  rcases t with _ | ⟨y, _ | ⟨z, r⟩⟩
  · rfl
  · rfl
  · exact resolveSpecL_noFire dt x y z r (fun h => hx h.1) (fun h => hx h.1)
      (fun h => hx h.1)

theorem resolveSpecL_skip_starts (dt : Date) (x : Char) (w : List Char)
    (h1 : ¬ startsWith2 'Y' '}' w) (h2 : ¬ startsWith2 'm' '}' w)
    (h3 : ¬ startsWith2 'd' '}' w) :
    resolveSpecL dt (x :: w) = x :: resolveSpecL dt w := by
  rcases w with _ | ⟨u, _ | ⟨v, w⟩⟩
  · rfl
  · rfl
  · refine resolveSpecL_noFire dt x u v w ?_ ?_ ?_
    · rintro ⟨-, rfl, rfl⟩
      exact h1 ⟨w, rfl⟩
    · rintro ⟨-, rfl, rfl⟩
      exact h2 ⟨w, rfl⟩
    · rintro ⟨-, rfl, rfl⟩
      exact h3 ⟨w, rfl⟩

theorem resolveSpecL_append (dt : Date) (l : List Char)
    (hl : ∀ u ∈ l, u ≠ '{') (t : List Char) :
    resolveSpecL dt (l ++ t) = l ++ resolveSpecL dt t := by
  induction l with
  | nil => rfl
  | cons u l ih =>
    rw [List.cons_append, resolveSpecL_skip_head dt u (hl u (by simp)) (l ++ t),
      ih (fun v hv => hl v (by simp [hv])), List.cons_append]

theorem resolveSpecL_head_iff (dt : Date) (q : Char) (hq : q.isDigit = false)
    (hqb : q ≠ '{') (t : List Char) :
    (resolveSpecL dt t).head? = some q ↔ t.head? = some q := by
  rcases t with _ | ⟨x, _ | ⟨y, _ | ⟨z, r⟩⟩⟩
  · rfl
  · rfl
  · rfl
  · by_cases hA : x = '{' ∧ y = 'Y' ∧ z = '}'
    · obtain ⟨rfl, rfl, rfl⟩ := hA
      rw [resolveSpecL_fireY]
      constructor
      · intro h
        exact absurd h (digits_append_head_ne _ _ q (fmtY_digitsOnly dt) hq)
      · intro h
        exact absurd (Option.some.inj h).symm hqb
    · by_cases hB : x = '{' ∧ y = 'm' ∧ z = '}'
      · obtain ⟨rfl, rfl, rfl⟩ := hB
        rw [resolveSpecL_fireM]
        constructor
        · intro h
          exact absurd h (digits_append_head_ne _ _ q (fmtM_digitsOnly dt) hq)
        · intro h
          exact absurd (Option.some.inj h).symm hqb
      · by_cases hC : x = '{' ∧ y = 'd' ∧ z = '}'
        · obtain ⟨rfl, rfl, rfl⟩ := hC
          rw [resolveSpecL_fireD]
          constructor
          · intro h
            exact absurd h (digits_append_head_ne _ _ q (fmtD_digitsOnly dt) hq)
          · intro h
            exact absurd (Option.some.inj h).symm hqb
        · rw [resolveSpecL_noFire dt x y z r hA hB hC]
          rfl

theorem resolveSpecL_startsTwo_iff (dt : Date) (q1 q2 : Char)
    (hq1 : q1.isDigit = false) (hq1b : q1 ≠ '{')
    (hq2 : q2.isDigit = false) (hq2b : q2 ≠ '{') (t : List Char) :
    startsWith2 q1 q2 (resolveSpecL dt t) ↔ startsWith2 q1 q2 t := by
  rcases t with _ | ⟨x, _ | ⟨y, _ | ⟨z, r⟩⟩⟩
  · rfl
  · rfl
  · rfl
  · by_cases hA : x = '{' ∧ y = 'Y' ∧ z = '}'
    · obtain ⟨rfl, rfl, rfl⟩ := hA
      rw [resolveSpecL_fireY]
      constructor
      · intro h
        exact absurd h (digits_append_not_starts _ _ q1 q2 (fmtY_digitsOnly dt) hq1)
      · intro h
        rcases (startsWith2_cons q1 q2 _ _).mp h with ⟨h1, -⟩
        exact absurd h1.symm hq1b
    · by_cases hB : x = '{' ∧ y = 'm' ∧ z = '}'
      · obtain ⟨rfl, rfl, rfl⟩ := hB
        rw [resolveSpecL_fireM]
        constructor
        · intro h
          exact absurd h (digits_append_not_starts _ _ q1 q2 (fmtM_digitsOnly dt) hq1)
        · intro h
          rcases (startsWith2_cons q1 q2 _ _).mp h with ⟨h1, -⟩
          exact absurd h1.symm hq1b
      · by_cases hC : x = '{' ∧ y = 'd' ∧ z = '}'
        · obtain ⟨rfl, rfl, rfl⟩ := hC
          rw [resolveSpecL_fireD]
          constructor
          · intro h
            exact absurd h (digits_append_not_starts _ _ q1 q2 (fmtD_digitsOnly dt) hq1)
          · intro h
            rcases (startsWith2_cons q1 q2 _ _).mp h with ⟨h1, -⟩
            exact absurd h1.symm hq1b
        · rw [resolveSpecL_noFire dt x y z r hA hB hC, startsWith2_cons,
            startsWith2_cons, resolveSpecL_head_iff dt q2 hq2 hq2b]

theorem prepareL_eq_resolveL (dt : Date) (s : List Char) :
    prepareIndexNameL dt s = resolveSpecL dt s := by
  rcases s with _ | ⟨x, _ | ⟨y, _ | ⟨z, r⟩⟩⟩
  · rfl
  · rfl
  · rfl
  · have IHr := prepareL_eq_resolveL dt r
    have IHt := prepareL_eq_resolveL dt (y :: z :: r)
    unfold prepareIndexNameL at IHr IHt ⊢
    have hneY : ∀ u ∈ fmtY dt, u ≠ '{' :=
      fun u hu => digit_ne u _ ((fmtY_digitsOnly dt).2 u hu) (by decide)
    have hneM : ∀ u ∈ fmtM dt, u ≠ '{' :=
      fun u hu => digit_ne u _ ((fmtM_digitsOnly dt).2 u hu) (by decide)
    by_cases hA : x = '{' ∧ y = 'Y' ∧ z = '}'
    · obtain ⟨rfl, rfl, rfl⟩ := hA
      rw [replTok_fire,
        replTok_append '{' 'm' '}' (fmtM dt) (fmtY dt) hneY _,
        replTok_append '{' 'd' '}' (fmtD dt) (fmtY dt) hneY _,
        IHr, resolveSpecL_fireY]
    · by_cases hB : x = '{' ∧ y = 'm' ∧ z = '}'
      · obtain ⟨rfl, rfl, rfl⟩ := hB
        rw [replTok_cons3,
          if_neg (show ¬('{' = '{' ∧ 'm' = 'Y' ∧ '}' = '}') by decide),
          replTok_skip_head '{' 'Y' '}' 'm' (fmtY dt) (by decide) _,
          replTok_skip_head '{' 'Y' '}' '}' (fmtY dt) (by decide) _,
          replTok_fire '{' 'm' '}' (fmtM dt) _,
          replTok_append '{' 'd' '}' (fmtD dt) (fmtM dt) hneM _,
          IHr, resolveSpecL_fireM]
      · by_cases hC : x = '{' ∧ y = 'd' ∧ z = '}'
        · obtain ⟨rfl, rfl, rfl⟩ := hC
          rw [replTok_cons3,
            if_neg (show ¬('{' = '{' ∧ 'd' = 'Y' ∧ '}' = '}') by decide),
            replTok_skip_head '{' 'Y' '}' 'd' (fmtY dt) (by decide) _,
            replTok_skip_head '{' 'Y' '}' '}' (fmtY dt) (by decide) _,
            replTok_cons3,
            if_neg (show ¬('{' = '{' ∧ 'd' = 'm' ∧ '}' = '}') by decide),
            replTok_skip_head '{' 'm' '}' 'd' (fmtM dt) (by decide) _,
            replTok_skip_head '{' 'm' '}' '}' (fmtM dt) (by decide) _,
            replTok_fire '{' 'd' '}' (fmtD dt) _,
            IHr, resolveSpecL_fireD]
        · by_cases hx : x = '{'
          · subst hx
            have hmT : ¬ startsWith2 'm' '}'
                (replTok '{' 'Y' '}' (fmtY dt) (y :: z :: r)) := by
              rw [replTok_startsTwo_iff '{' 'Y' '}' 'm' '}' (fmtY dt)
                  (fmtY_digitsOnly dt) (by decide) (by decide) (by decide)
                  (by decide), startsWith2_cons2]
              rintro ⟨rfl, rfl⟩
              exact hB ⟨rfl, rfl, rfl⟩
            have hdT : ¬ startsWith2 'd' '}'
                (replTok '{' 'm' '}' (fmtM dt)
                  (replTok '{' 'Y' '}' (fmtY dt) (y :: z :: r))) := by
              rw [replTok_startsTwo_iff '{' 'm' '}' 'd' '}' (fmtM dt)
                  (fmtM_digitsOnly dt) (by decide) (by decide) (by decide)
                  (by decide),
                replTok_startsTwo_iff '{' 'Y' '}' 'd' '}' (fmtY dt)
                  (fmtY_digitsOnly dt) (by decide) (by decide) (by decide)
                  (by decide), startsWith2_cons2]
              rintro ⟨rfl, rfl⟩
              exact hC ⟨rfl, rfl, rfl⟩
            rw [replTok_cons3, if_neg hA,
              replTok_skip_starts '{' 'm' '}' '{' (fmtM dt) _ hmT,
              replTok_skip_starts '{' 'd' '}' '{' (fmtD dt) _ hdT,
              IHt, resolveSpecL_noFire dt '{' y z r hA hB hC]
          · rw [replTok_skip_head '{' 'Y' '}' x (fmtY dt) hx _,
              replTok_skip_head '{' 'm' '}' x (fmtM dt) hx _,
              replTok_skip_head '{' 'd' '}' x (fmtD dt) hx _,
              IHt,
              resolveSpecL_noFire dt x y z r (fun h => hx h.1) (fun h => hx h.1)
                (fun h => hx h.1)]
termination_by s.length

theorem replTok_id (a b c : Char) (rep l : List Char) (hl : ∀ u ∈ l, u ≠ a) :
    replTok a b c rep l = l := by
  have h0 : replTok a b c rep [] = [] := rfl
  have h := replTok_append a b c rep l hl []
  rw [List.append_nil, h0, List.append_nil] at h
  exact h

theorem prepareIndexNameL_no_brace (dt : Date) (l : List Char)
    (hl : ∀ u ∈ l, u ≠ '{') : prepareIndexNameL dt l = l := by
  unfold prepareIndexNameL
  rw [replTok_id '{' 'Y' '}' (fmtY dt) l hl, replTok_id '{' 'm' '}' (fmtM dt) l hl,
    replTok_id '{' 'd' '}' (fmtD dt) l hl]

theorem resolveSpecL_idem (dt : Date) (s : List Char) :
    resolveSpecL dt (resolveSpecL dt s) = resolveSpecL dt s := by
  rcases s with _ | ⟨x, _ | ⟨y, _ | ⟨z, r⟩⟩⟩
  · rfl
  · rfl
  · rfl
  · have IHr := resolveSpecL_idem dt r
    have IHt := resolveSpecL_idem dt (y :: z :: r)
    by_cases hA : x = '{' ∧ y = 'Y' ∧ z = '}'
    · obtain ⟨rfl, rfl, rfl⟩ := hA
      rw [resolveSpecL_fireY,
        resolveSpecL_append dt (fmtY dt)
          (fun u hu => digit_ne u _ ((fmtY_digitsOnly dt).2 u hu) (by decide)) _,
        IHr]
    · by_cases hB : x = '{' ∧ y = 'm' ∧ z = '}'
      · obtain ⟨rfl, rfl, rfl⟩ := hB
        rw [resolveSpecL_fireM,
          resolveSpecL_append dt (fmtM dt)
            (fun u hu => digit_ne u _ ((fmtM_digitsOnly dt).2 u hu) (by decide)) _,
          IHr]
      · by_cases hC : x = '{' ∧ y = 'd' ∧ z = '}'
        · obtain ⟨rfl, rfl, rfl⟩ := hC
          rw [resolveSpecL_fireD,
            resolveSpecL_append dt (fmtD dt)
              (fun u hu => digit_ne u _ ((fmtD_digitsOnly dt).2 u hu) (by decide)) _,
            IHr]
        · by_cases hx : x = '{'
          · subst hx
            have h1 : ¬ startsWith2 'Y' '}' (resolveSpecL dt (y :: z :: r)) := by
              rw [resolveSpecL_startsTwo_iff dt 'Y' '}' (by decide) (by decide)
                  (by decide) (by decide), startsWith2_cons2]
              rintro ⟨rfl, rfl⟩
              exact hA ⟨rfl, rfl, rfl⟩
            have h2 : ¬ startsWith2 'm' '}' (resolveSpecL dt (y :: z :: r)) := by
              rw [resolveSpecL_startsTwo_iff dt 'm' '}' (by decide) (by decide)
                  (by decide) (by decide), startsWith2_cons2]
              rintro ⟨rfl, rfl⟩
              exact hB ⟨rfl, rfl, rfl⟩
            have h3 : ¬ startsWith2 'd' '}' (resolveSpecL dt (y :: z :: r)) := by
              rw [resolveSpecL_startsTwo_iff dt 'd' '}' (by decide) (by decide)
                  (by decide) (by decide), startsWith2_cons2]
              rintro ⟨rfl, rfl⟩
              exact hC ⟨rfl, rfl, rfl⟩
            rw [resolveSpecL_noFire dt '{' y z r hA hB hC,
              resolveSpecL_skip_starts dt '{' _ h1 h2 h3, IHt]
          · rw [resolveSpecL_noFire dt x y z r (fun h => hx h.1) (fun h => hx h.1)
                (fun h => hx h.1),
              resolveSpecL_skip_head dt x hx _, IHt]
termination_by s.length

/-- Claim C5: the source's `prepareIndexName` (three chained `str.replace`
calls) coincides, for every template string and every date, with the
spec-modelled single-pass resolver that replaces each occurrence of the
literal placeholders with the date components and passes all other text
(unrecognized brace tokens included) through unchanged. In the embedding
the function depends only on the date and the template (determinism, no
message dependency, no side effects), and templates without placeholders
such as "static" come back unchanged. -/
theorem C5_prepareIndexName_matches_spec (dt : Date) (index : String) :
    prepareIndexName dt index = resolveSpec dt index ∧
    prepareIndexName dt "static" = "static" := by
  constructor
  · unfold prepareIndexName resolveSpec
    rw [prepareL_eq_resolveL]
  · unfold prepareIndexName
    rw [prepareIndexNameL_no_brace dt _ (by decide)]

theorem prepareIndexName_idem (dt : Date) (index : String) :
    prepareIndexName dt (prepareIndexName dt index) = prepareIndexName dt index := by
  unfold prepareIndexName
  apply congrArg
  rw [show (String.mk (prepareIndexNameL dt index.data)).data
      = prepareIndexNameL dt index.data from rfl]
  rw [prepareL_eq_resolveL dt index.data,
    prepareL_eq_resolveL dt (resolveSpecL dt index.data), resolveSpecL_idem]

/-- Claim C10: index-name resolution is idempotent at a fixed date: the
replacement strings are decimal digits, so the output of
`prepareIndexName` contains no recognized placeholders and resolving it
again changes nothing. -/
theorem C10_prepareIndexName_idem (dt : Date) (index : String) :
    prepareIndexName dt (prepareIndexName dt index) = prepareIndexName dt index :=
  prepareIndexName_idem dt index

/-- Claim C1 (the code bug, evaluated): with the removal flag set, a
mapping of two entries and a store holding both indices, the startup loop
removes only the first entry's index and then exits the process with code
0: the second index is never deleted, nothing is recreated
(`countCreates` is 0), and startup never reaches the broker connection —
against the claimed delete-all-then-recreate-then-continue behavior. -/
theorem C1_remove_exits_after_first_entry :
    provisionLoop ⟨2026, 1, 2⟩ true ⟨["idx-a", "idx-b"]⟩ mapTwo
      = (⟨["idx-b"]⟩, [Ev.existsCheck "idx-a" true, Ev.deleteIdx "idx-a"], true) ∧
    countCreates (provisionLoop ⟨2026, 1, 2⟩ true ⟨["idx-a", "idx-b"]⟩ mapTwo).2.1 = 0 ∧
    "idx-b" ∈ (provisionLoop ⟨2026, 1, 2⟩ true ⟨["idx-a", "idx-b"]⟩ mapTwo).1.indices ∧
    mainStartup ⟨2026, 1, 2⟩ cfgRemove mapTwo ⟨["idx-a", "idx-b"]⟩
      = .exitedWith 0
          [Ev.connectStore, Ev.existsCheck "idx-a" true, Ev.deleteIdx "idx-a"] := by
  decide

/-- Claim C4: `createIndex` is idempotent: called twice for the same
template (so the same resolved name) on a store where the index is
initially absent, the two calls together issue exactly one creation, and
the second call is a pure no-op existence check that changes nothing. -/
theorem C4_createIndex_idempotent (dt : Date) (st : Store) (tmpl : String)
    (body : Json) (h : prepareIndexName dt tmpl ∉ st.indices) :
    countCreates ((createIndex dt st tmpl body).2
        ++ (createIndex dt (createIndex dt st tmpl body).1 tmpl body).2) = 1 ∧
    (createIndex dt (createIndex dt st tmpl body).1 tmpl body).2
      = [Ev.existsCheck (prepareIndexName dt tmpl) true] ∧
    (createIndex dt (createIndex dt st tmpl body).1 tmpl body).1
      = (createIndex dt st tmpl body).1 := by
  have h1 : createIndex dt st tmpl body
      = (⟨st.indices ++ [prepareIndexName dt tmpl]⟩,
         [Ev.existsCheck (prepareIndexName dt tmpl) false,
          Ev.createIdx (prepareIndexName dt tmpl)]) := by
    unfold createIndex
    rw [if_neg h]
  have h2 : createIndex dt (⟨st.indices ++ [prepareIndexName dt tmpl]⟩ : Store)
        tmpl body
      = ((⟨st.indices ++ [prepareIndexName dt tmpl]⟩ : Store),
         [Ev.existsCheck (prepareIndexName dt tmpl) true]) := by
    unfold createIndex
    rw [if_pos (by simp)]
  rw [h1]
  simp only []
  rw [h2]
  exact ⟨rfl, rfl, rfl⟩

/-- Claim C4 witness: a concrete run of the two calls on an empty store. -/
theorem C4_createIndex_idempotent_witness :
    countCreates ((createIndex ⟨2026, 1, 2⟩ ⟨[]⟩ "x" Json.null).2
        ++ (createIndex ⟨2026, 1, 2⟩ (createIndex ⟨2026, 1, 2⟩ ⟨[]⟩ "x" Json.null).1
              "x" Json.null).2) = 1 ∧
    (createIndex ⟨2026, 1, 2⟩ (createIndex ⟨2026, 1, 2⟩ ⟨[]⟩ "x" Json.null).1
        "x" Json.null).2
      = [Ev.existsCheck (prepareIndexName ⟨2026, 1, 2⟩ "x") true] ∧
    (createIndex ⟨2026, 1, 2⟩ (createIndex ⟨2026, 1, 2⟩ ⟨[]⟩ "x" Json.null).1
        "x" Json.null).1
      = (createIndex ⟨2026, 1, 2⟩ ⟨[]⟩ "x" Json.null).1 :=
  C4_createIndex_idempotent ⟨2026, 1, 2⟩ ⟨[]⟩ "x" Json.null (by decide)

/-- Claim C7: the connect callback exits the process with code 1 on any
non-zero connect return code, and on return code 0 subscribes to every
topic key of the mapping table. -/
theorem C7_on_connect_fatal_or_subscribes (rc : Nat)
    (topic2index : List (String × MapEntry)) :
    (rc ≠ 0 → on_connect rc topic2index = .error 1) ∧
    (rc = 0 →
      on_connect rc topic2index
        = .ok (topic2index.map fun kv => Ev.subscribe kv.1) ∧
      ∀ kv ∈ topic2index,
        Ev.subscribe kv.1 ∈ (topic2index.map fun kv => Ev.subscribe kv.1)) := by
  constructor
  · intro h
    unfold on_connect
    rw [if_pos h]
  · intro h
    constructor
    · unfold on_connect
      rw [if_neg (fun hh => hh h)]
    · intro kv hkv
      exact List.mem_map_of_mem _ hkv

theorem mkAppend (a b : List Char) :
    String.mk (a ++ b) = String.mk a ++ String.mk b := rfl

theorem prepareIndexName_no_brace (dt : Date) (s : String)
    (hs : ∀ u ∈ s.data, u ≠ '{') : prepareIndexName dt s = s := by
  unfold prepareIndexName
  rw [prepareIndexNameL_no_brace dt s.data hs]

theorem prepareIndexName_tempY (dt : Date) :
    prepareIndexName dt "temp-{Y}" = "temp-" ++ fmtYStr dt := by
  have hchars : ∀ u ∈ ['t', 'e', 'm', 'p', '-'], u ≠ '{' := by decide
  have hall : ∀ u ∈ ['t', 'e', 'm', 'p', '-'] ++ fmtY dt, u ≠ '{' := by
    intro u hu
    rcases List.mem_append.mp hu with h | h
    · exact hchars u h
    · exact digit_ne u _ ((fmtY_digitsOnly dt).2 u h) (by decide)
  have h1 : prepareIndexNameL dt ("temp-{Y}".data)
      = ['t', 'e', 'm', 'p', '-'] ++ fmtY dt := by
    unfold prepareIndexNameL
    rw [show "temp-{Y}".data
        = ['t', 'e', 'm', 'p', '-'] ++ ('{' :: 'Y' :: '}' :: []) from rfl]
    rw [replTok_append '{' 'Y' '}' (fmtY dt) _ hchars _, replTok_fire]
    rw [show replTok '{' 'Y' '}' (fmtY dt) [] = [] from rfl, List.append_nil]
    rw [replTok_id '{' 'm' '}' (fmtM dt) _ hall, replTok_id '{' 'd' '}' (fmtD dt) _ hall]
  unfold prepareIndexName
  rw [h1, mkAppend]
  rfl

theorem fmtYStr_data (dt : Date) :
    ("temp-" ++ fmtYStr dt).data = ['t', 'e', 'm', 'p', '-'] ++ fmtY dt := rfl

theorem prepareIndexName_tempY_fixed (dt : Date) :
    prepareIndexName dt ("temp-" ++ fmtYStr dt) = "temp-" ++ fmtYStr dt := by
  refine prepareIndexName_no_brace dt _ ?_
  rw [fmtYStr_data]
  intro u hu
  rcases List.mem_append.mp hu with h | h
  · exact (by decide : ∀ w ∈ ['t', 'e', 'm', 'p', '-'], w ≠ '{') u h
  · exact digit_ne u _ ((fmtY_digitsOnly dt).2 u h) (by decide)

/-- Claim C2 counterexample: against the wildcard-keyed mapping table
`{"sensors/+/temp": {elasticIndex: "temp-{Y}"}}`, a message delivered on
the literal topic `sensors/room1/temp` does not resolve any index: the
handler looks the topic up by exact dictionary key, the lookup raises
`KeyError`, and no existence check, provisioning or write happens. -/
theorem C2_wildcard_lookup_fails :
    on_message ⟨2026, 1, 2⟩ parseDemo dumpsDemo mapWildcard ⟨[]⟩
        ⟨"sensors/room1/temp", [49]⟩
      = .err .keyError ⟨[]⟩ [] := by
  decide

/-- Claim C2 (amended to exact-key matching): when the single mapping
entry is keyed by the exact topic of the incoming message with template
"temp-{Y}", the handler resolves the index to "temp-" followed by the
four-digit year and provisions it (`createIdx`) before the document write
(`writeDoc`). -/
theorem C2_exact_topic_routes (dt : Date) (parse : List Nat → Option Json)
    (dumps : Json → String) (topic : String) (body : Json) (st : Store)
    (pl : List Nat) (v : Json)
    (hidx : ("temp-" ++ fmtYStr dt) ∉ st.indices)
    (hparse : parse pl = some v) :
    prepareIndexName dt "temp-{Y}" = "temp-" ++ fmtYStr dt ∧
    on_message dt parse dumps [(topic, ⟨"temp-{Y}", body⟩)] st ⟨topic, pl⟩
      = .ok ⟨st.indices ++ ["temp-" ++ fmtYStr dt]⟩
          [Ev.existsCheck ("temp-" ++ fmtYStr dt) false,
           Ev.existsCheck ("temp-" ++ fmtYStr dt) false,
           Ev.createIdx ("temp-" ++ fmtYStr dt),
           Ev.writeDoc ("temp-" ++ fmtYStr dt) (dumps v)] := by
  refine ⟨prepareIndexName_tempY dt, ?_⟩
  have hl : ([(topic, (⟨"temp-{Y}", body⟩ : MapEntry))]).lookup topic
      = some ⟨"temp-{Y}", body⟩ := by
    simp [List.lookup]
  unfold on_message createIndex
  simp only [hl]
  rw [prepareIndexName_tempY dt, prepareIndexName_tempY_fixed dt,
    if_neg hidx, if_neg hidx, hparse]
  rfl

/-- Claim C2 witness: the amended routing run on a concrete date, store
and payload. -/
theorem C2_exact_topic_routes_witness :
    prepareIndexName ⟨2026, 1, 2⟩ "temp-{Y}" = "temp-" ++ fmtYStr ⟨2026, 1, 2⟩ ∧
    on_message ⟨2026, 1, 2⟩ parseDemo dumpsDemo
        [("sensors/room1/temp", ⟨"temp-{Y}", Json.null⟩)] ⟨[]⟩
        ⟨"sensors/room1/temp", [49]⟩
      = .ok ⟨[] ++ ["temp-" ++ fmtYStr ⟨2026, 1, 2⟩]⟩
          [Ev.existsCheck ("temp-" ++ fmtYStr ⟨2026, 1, 2⟩) false,
           Ev.existsCheck ("temp-" ++ fmtYStr ⟨2026, 1, 2⟩) false,
           Ev.createIdx ("temp-" ++ fmtYStr ⟨2026, 1, 2⟩),
           Ev.writeDoc ("temp-" ++ fmtYStr ⟨2026, 1, 2⟩) (dumpsDemo (Json.num 1))] :=
  C2_exact_topic_routes ⟨2026, 1, 2⟩ parseDemo dumpsDemo "sensors/room1/temp"
    Json.null ⟨[]⟩ [49] (Json.num 1) (by decide) rfl

/-- Claim C3 counterexample: a first message with an undecodable payload
crashes the receive loop — the handler's parse failure propagates out of
the loop — and the second, well-formed message is never processed (no
trace event of it appears). -/
theorem C3_malformed_payload_crashes_loop :
    runLoop ⟨2026, 1, 2⟩ parseDemo dumpsDemo mapPlain ⟨["idx"]⟩
        [⟨"t", [255]⟩, ⟨"t", [49]⟩]
      = .crashed .parseError ⟨["idx"]⟩ [Ev.existsCheck "idx" true] := by
  decide

/-- Claim C3 (amended to the source behavior): a payload that fails to
decode or parse raises an uncaught error in `on_message` after the
provisioning step and before any write; the error propagates out of the
receive loop, so the loop terminates and no subsequent message is
processed — the result does not depend on the remaining messages. -/
theorem C3_parse_error_crashes (dt : Date) (parse : List Nat → Option Json)
    (dumps : Json → String) (t2i : List (String × MapEntry)) (st : Store)
    (m : Msg) (e : MapEntry)
    (hlook : t2i.lookup m.topic = some e)
    (hparse : parse m.payload = none) :
    ∃ st1 evs1,
      on_message dt parse dumps t2i st m = .err .parseError st1 evs1 ∧
      (∀ i b, Ev.writeDoc i b ∉ evs1) ∧
      ∀ rest, runLoop dt parse dumps t2i st (m :: rest)
        = .crashed .parseError st1 evs1 := by
  by_cases h : prepareIndexName dt e.elasticIndex ∈ st.indices
  · have heq : on_message dt parse dumps t2i st m
        = .err .parseError st
            [Ev.existsCheck (prepareIndexName dt e.elasticIndex) true] := by
      unfold on_message
      simp only [hlook]
      rw [if_pos h, hparse]
    refine ⟨st, _, heq, ?_, ?_⟩
    · intro i b hb
      simp at hb
    · intro rest
      unfold runLoop
      rw [heq]
  · have heq : on_message dt parse dumps t2i st m
        = .err .parseError ⟨st.indices ++ [prepareIndexName dt e.elasticIndex]⟩
            [Ev.existsCheck (prepareIndexName dt e.elasticIndex) false,
             Ev.existsCheck (prepareIndexName dt e.elasticIndex) false,
             Ev.createIdx (prepareIndexName dt e.elasticIndex)] := by
      unfold on_message createIndex
      simp only [hlook]
      rw [prepareIndexName_idem dt e.elasticIndex, if_neg h, if_neg h, hparse]
    refine ⟨_, _, heq, ?_, ?_⟩
    · intro i b hb
      simp at hb
    · intro rest
      unfold runLoop
      rw [heq]

/-- Claim C3 witness: the amended behavior on a concrete bad payload. -/
theorem C3_parse_error_crashes_witness :
    ∃ st1 evs1,
      on_message ⟨2026, 1, 2⟩ parseDemo dumpsDemo mapPlain ⟨["idx"]⟩
          ⟨"t", [255]⟩ = .err .parseError st1 evs1 ∧
      (∀ i b, Ev.writeDoc i b ∉ evs1) ∧
      ∀ rest, runLoop ⟨2026, 1, 2⟩ parseDemo dumpsDemo mapPlain ⟨["idx"]⟩
          (⟨"t", [255]⟩ :: rest) = .crashed .parseError st1 evs1 :=
  C3_parse_error_crashes ⟨2026, 1, 2⟩ parseDemo dumpsDemo mapPlain ⟨["idx"]⟩
    ⟨"t", [255]⟩ ⟨"idx", Json.null⟩ rfl rfl

/-- Claim C8: for a payload that parses to `v`, the single document body
submitted to the store is exactly `dumps v`, the verbatim reserialization
of the parsed payload — no transformation, enrichment or field mapping is
applied — and no other write occurs while the message is handled. -/
theorem C8_payload_written_verbatim (dt : Date) (parse : List Nat → Option Json)
    (dumps : Json → String) (t2i : List (String × MapEntry)) (st : Store)
    (m : Msg) (e : MapEntry) (v : Json)
    (hlook : t2i.lookup m.topic = some e)
    (hparse : parse m.payload = some v) :
    ∃ st1 pre,
      on_message dt parse dumps t2i st m
        = .ok st1
            (pre ++ [Ev.writeDoc (prepareIndexName dt e.elasticIndex) (dumps v)]) ∧
      ∀ i b, Ev.writeDoc i b ∉ pre := by
  by_cases h : prepareIndexName dt e.elasticIndex ∈ st.indices
  · refine ⟨st, [Ev.existsCheck (prepareIndexName dt e.elasticIndex) true], ?_, ?_⟩
    · unfold on_message
      simp only [hlook]
      rw [if_pos h, hparse]
    · intro i b hb
      simp at hb
  · refine ⟨⟨st.indices ++ [prepareIndexName dt e.elasticIndex]⟩,
      [Ev.existsCheck (prepareIndexName dt e.elasticIndex) false,
       Ev.existsCheck (prepareIndexName dt e.elasticIndex) false,
       Ev.createIdx (prepareIndexName dt e.elasticIndex)], ?_, ?_⟩
    · unfold on_message createIndex
      simp only [hlook]
      rw [prepareIndexName_idem dt e.elasticIndex, if_neg h, if_neg h, hparse]
    · intro i b hb
      simp at hb

theorem checkHosts_error (hs : List OsHost) :
    ∀ c : Nat, checkHosts hs = Except.error c → c = 1 := by
  induction hs with
  | nil =>
    intro c h
    simp [checkHosts] at h
  | cons hd tl ih =>
    intro c h
    unfold checkHosts at h
    rcases hh : hd.host with _ | x
    · simp only [hh] at h
      injection h with h2
      omega
    · simp only [hh] at h
      rcases hr : checkHosts tl with c2 | hs1
      · simp only [hr] at h
        injection h with h2
        rw [← h2]
        exact ih c2 hr
      · simp only [hr] at h
        simp at h

theorem checkElastic_error (e : Option ElasticCfg) (c : Nat)
    (h : checkElastic e = Except.error c) : c = 1 := by
  rcases e with _ | e
  · simp [checkElastic] at h
  · unfold checkElastic at h
    rcases hc : e.cluster with _ | cl
    · simp only [hc] at h
      injection h with h2
      omega
    · simp only [hc] at h
      by_cases hl : cl.length < 1
      · rw [if_pos hl] at h
        injection h with h2
        omega
      · rw [if_neg hl] at h
        simp at h

theorem checkOpensearch_error (o : Option OpensearchCfg) (c : Nat)
    (h : checkOpensearch o = Except.error c) : c = 1 := by
  rcases o with _ | o
  · simp [checkOpensearch] at h
  · unfold checkOpensearch at h
    rcases hh : o.hosts with _ | hs
    · simp only [hh] at h
      injection h with h2
      omega
    · simp only [hh] at h
      by_cases hl : hs.length < 1
      · rw [if_pos hl] at h
        injection h with h2
        omega
      · rw [if_neg hl] at h
        rcases hr : checkHosts hs with c2 | hs1
        · simp only [hr] at h
          injection h with h2
          rw [← h2]
          exact checkHosts_error hs c2 hr
        · simp only [hr] at h
          simp at h

theorem startupValidate_excl (cfg : Config)
    (h : (cfg.elasticsearch.isSome = true ∧ cfg.opensearch.isSome = true) ∨
         (cfg.elasticsearch = none ∧ cfg.opensearch = none)) :
    startupValidate cfg = .error 1 := by
  unfold startupValidate
  rcases hm : cfg.mqtt with _ | m
  · simp only [hm]
  · simp only [hm]
    rcases hce : checkElastic cfg.elasticsearch with c | eOpt
    · have h1 := checkElastic_error _ c hce
      subst h1
      simp only [hce]
    · simp only [hce]
      rcases hco : checkOpensearch cfg.opensearch with c | oOpt
      · have h1 := checkOpensearch_error _ c hco
        subst h1
        simp only [hco]
      · simp only [hco]
        rcases h with ⟨he, ho⟩ | ⟨he, ho⟩
        · rw [if_pos (show (cfg.opensearch.isSome && cfg.elasticsearch.isSome)
              = true by simp [he, ho])]
        · simp [he, ho]

/-- Claim C6: a configuration that selects both backends, and likewise one
that selects neither, makes startup exit with code 1 during validation,
before any store or broker connection is attempted (the trace is empty). -/
theorem C6_backend_mutual_exclusivity (dt : Date) (cfg : Config)
    (topic2index : List (String × MapEntry)) (st : Store)
    (h : (cfg.elasticsearch.isSome = true ∧ cfg.opensearch.isSome = true) ∨
         (cfg.elasticsearch = none ∧ cfg.opensearch = none)) :
    mainStartup dt cfg topic2index st = .exitedWith 1 [] := by
  unfold mainStartup
  rw [startupValidate_excl cfg h]

/-- Claim C6 witness: concrete both-backends and neither-backend
configurations. -/
theorem C6_backend_mutual_exclusivity_witness :
    mainStartup ⟨2026, 1, 2⟩ cfgBoth [] ⟨[]⟩ = .exitedWith 1 [] ∧
    mainStartup ⟨2026, 1, 2⟩ cfgNeither [] ⟨[]⟩ = .exitedWith 1 [] :=
  ⟨C6_backend_mutual_exclusivity ⟨2026, 1, 2⟩ cfgBoth [] ⟨[]⟩ (Or.inl ⟨rfl, rfl⟩),
   C6_backend_mutual_exclusivity ⟨2026, 1, 2⟩ cfgNeither [] ⟨[]⟩ (Or.inr ⟨rfl, rfl⟩)⟩

/-- Claim C9: after the credential defaulting of the opensearch block,
basic auth is attached if and only if both credential keys were present
with non-empty values; when either key is absent both values are reset to
null and the client is built with no authentication. -/
theorem C9_opensearch_auth (o : OpensearchCfg) (u p : String) :
    (osAuth (osCredentialDefaults o) = some (u, p) ↔
      o.username = some u ∧ o.password = some p ∧ u ≠ "" ∧ p ≠ "") ∧
    ((o.username = none ∨ o.password = none) →
      (osCredentialDefaults o).username = none ∧
      (osCredentialDefaults o).password = none ∧
      osAuth (osCredentialDefaults o) = none) := by
  rcases hu : o.username with _ | u0
  · constructor
    · simp [osCredentialDefaults, osAuth, hu]
    · intro _
      simp [osCredentialDefaults, osAuth, hu]
  · rcases hp : o.password with _ | p0
    · constructor
      · simp [osCredentialDefaults, osAuth, hu, hp]
      · intro _
        simp [osCredentialDefaults, osAuth, hu, hp]
    · have hid : osCredentialDefaults o = o := by
        simp [osCredentialDefaults, hu, hp]
      rw [hid]
      constructor
      · simp only [osAuth, hu, hp]
        by_cases hb : u0 ≠ "" ∧ p0 ≠ ""
        · rw [if_pos hb]
          constructor
          · intro hh
            obtain ⟨h1, h2⟩ := Prod.mk.inj (Option.some.inj hh)
            subst h1
            subst h2
            exact ⟨rfl, rfl, hb.1, hb.2⟩
          · rintro ⟨h1, h2, -, -⟩
            rw [Option.some.inj h1, Option.some.inj h2]
        · rw [if_neg hb]
          constructor
          · intro hh
            exact absurd hh (by simp)
          · rintro ⟨h1, h2, hu1, hp1⟩
            exfalso
            apply hb
            constructor
            · rw [Option.some.inj h1]
              exact hu1
            · rw [Option.some.inj h2]
              exact hp1
      · rintro (hcontra | hcontra)
        · simp at hcontra
        · simp at hcontra

/-- Claim C8 witness: a concrete parsed payload is written verbatim. -/
theorem C8_payload_written_verbatim_witness :
    ∃ st1 pre,
      on_message ⟨2026, 1, 2⟩ parseDemo dumpsDemo mapPlain ⟨["idx"]⟩ ⟨"t", [49]⟩
        = .ok st1
            (pre ++ [Ev.writeDoc (prepareIndexName ⟨2026, 1, 2⟩ "idx")
              (dumpsDemo (Json.num 1))]) ∧
      ∀ i b, Ev.writeDoc i b ∉ pre :=
  C8_payload_written_verbatim ⟨2026, 1, 2⟩ parseDemo dumpsDemo mapPlain ⟨["idx"]⟩
    ⟨"t", [49]⟩ ⟨"idx", Json.null⟩ (Json.num 1) rfl rfl
